import Mathlib

/-!
# loyalty-consumer: a shallow embedding and its verified properties

The development follows the Go packages of the repository:

* `internal/models`  : `Transaction` and `Transaction.Validate`
* `internal/store`   : the SQL statements run through `pgx`
* `internal/cache`   : `SetBalance`
* `internal/handler` : `TransactionHandler.Handle`
* `internal/kafka`   : `Consumer.Setup`, `Consumer.Start`, `Consumer.ConsumeClaim`

Go `error` values are `Option`s (`none` is the nil error).  Stateful code is
written in state-passing style over explicit records; every database,
cache and broker call that can fail for an infrastructure reason reads its
outcome from an explicit `Faults` record.
-/

namespace LoyaltyConsumer

/-! ## internal/models -/

/-- Go `time.Time` without a monotonic clock reading, as `json.Unmarshal`
produces it: `sec` is the field `ext` (seconds counted from January 1, year 1,
00:00:00 UTC), `nsec` is the field `wall` (nanoseconds), and `loc` is the
location pointer, `none` for nil (UTC). -/
structure Time where
  sec : Int
  nsec : Nat
  loc : Option String
deriving DecidableEq, Repr

/-- The zero value of the struct, as `reflect.Value.IsZero` sees it: all three
fields are zero, the location pointer included. -/
def Time.reflectZero (t : Time) : Bool :=
  t.sec == 0 && t.nsec == 0 && t.loc.isNone

/-- The struct `models.Transaction`.  `Amount` is a Go `int64`; the range is
stated separately by `isInt64`.  The Go field `Type` is spelled `Type_`
because `Type` is a reserved word of Lean. -/
structure Transaction where
  ID : String
  UserID : String
  Amount : Int
  Type_ : String
  CreatedAt : Time
deriving DecidableEq, Repr

/-- Range of a Go `int64`. -/
def isInt64 (x : Int) : Prop :=
  -(2 ^ 63 : Int) ≤ x ∧ x < (2 ^ 63 : Int)

instance (x : Int) : Decidable (isInt64 x) := by
  unfold isInt64; infer_instance

/-- One entry of `validator.ValidationErrors`: the struct field and the tag
that failed. -/
structure FieldError where
  Field : String
  Tag : String
deriving DecidableEq, Repr

/-- Tag `required` on a string field: the value is not the empty string. -/
def requiredString (field : String) (v : String) : List FieldError :=
  if v = "" then [⟨field, "required"⟩] else []

/-- Tags `required,ne=0` on the `int64` field `Amount`.  The validator runs
the tags of a field in order and reports the first one that fails. -/
def checkAmount (v : Int) : List FieldError :=
  if v = 0 then [⟨"Amount", "required"⟩]
  else if v = 0 then [⟨"Amount", "ne"⟩]
  else []

/-- The values listed by the tag `oneof=purchase refund bonus`. -/
def typeOneOf : List String := ["purchase", "refund", "bonus"]

/-- Tags `required,oneof=purchase refund bonus` on the field `Type`. -/
def checkType (v : String) : List FieldError :=
  if v = "" then [⟨"Type", "required"⟩]
  else if v ∈ typeOneOf then []
  else [⟨"Type", "oneof"⟩]

/-- Tag `required` on the `time.Time` field `CreatedAt`: the validator rejects
the zero value of the struct.  A zero instant that carries a location is not
the zero value and passes. -/
def checkCreatedAt (v : Time) : List FieldError :=
  if v.reflectZero then [⟨"CreatedAt", "required"⟩] else []

/-- The field errors `validate.Struct(t)` collects, in field order. -/
def Transaction.fieldErrors (t : Transaction) : List FieldError :=
  requiredString "ID" t.ID ++ requiredString "UserID" t.UserID ++
    checkAmount t.Amount ++ checkType t.Type_ ++ checkCreatedAt t.CreatedAt

/-- `func (t *Transaction) Validate() error`: `validate.Struct(t)` returns
nil exactly when no field error was collected. -/
def Transaction.Validate (t : Transaction) : Option (List FieldError) :=
  match t.fieldErrors with
  | [] => none
  | e :: es => some (e :: es)

/-! ## internal/store

The database behind `pgxpool.Pool` is modelled by its two tables.  A `pgx.Tx`
works on a private copy of the tables taken by `BeginTx`; `Commit` installs
that copy, `Rollback` drops it.  Balances in the database are mathematical
integers.  Every call appends itself to the ghost list `Store.calls`. -/

/-- Why a database call failed. -/
inductive PgError where
  | unavailable
  | duplicateKey
  | txClosed
deriving DecidableEq, Repr

/-- A row of `transactions`, with the four values `insertTransaction` passes
to `Exec`: `tx.ID, tx.UserID, tx.Amount, tx.CreatedAt`. -/
structure TransactionRow where
  id : String
  user_id : String
  amount : Int
  time : Time
deriving DecidableEq, Repr

/-- A row of `users`. -/
structure UserRow where
  id : String
  balance : Int
deriving DecidableEq, Repr

/-- The two tables. -/
structure DB where
  transactions : List TransactionRow
  users : List UserRow
deriving DecidableEq, Repr

/-- Which calls return an error (`true`: the call fails), whatever the server
is.  For `InsertTransactionTx` the flag covers every reason other than a
duplicate key: a lost connection as well as a statement the server refuses
to parse; `onPostgres` sets it for PostgreSQL. -/
structure Faults where
  BeginTx : Bool
  InsertTransactionTx : Bool
  UpdateBalanceTx : Bool
  Commit : Bool
  GetBalance : Bool
  SetBalance : Bool
deriving DecidableEq, Repr

/-- The store and cache calls a run can make; `h` is the transaction handle. -/
inductive Call where
  | BeginTx
  | InsertTransactionTx (h : Nat) (tx : Transaction)
  | UpdateBalanceTx (h : Nat) (userID : String) (amount : Int)
  | Commit (h : Nat)
  | Rollback (h : Nat)
  | GetBalance (userID : String)
deriving DecidableEq, Repr

/-- A `pgx.Tx` handle. -/
structure PgxTx where
  id : Nat
  work : DB
  closed : Bool
deriving DecidableEq, Repr

/-- The struct `store.Store`: the pool, seen as the committed tables, the
number of the next handle, and the ghost list of calls. -/
structure Store where
  db : DB
  nextTx : Nat
  calls : List Call
deriving DecidableEq, Repr

/-- Errors built by the store with `fmt.Errorf`. -/
inductive StoreError where
  | insertTransaction (cause : PgError)
  | updateBalance (userID : String) (cause : PgError)
  | getBalanceNotFound (userID : String)
  | getBalance (userID : String) (cause : PgError)
deriving DecidableEq, Repr

/-- Modelled from the spec: the schema is not in the Go sources; section 6 of
the spec gives `transactions(id PRIMARY KEY, ...)`, so an `INSERT` whose id is
already in the table fails with a unique violation. -/
def execInsert (db : DB) (row : TransactionRow) : Except PgError DB :=
  if db.transactions.any (fun r => r.id == row.id) then .error .duplicateKey
  else .ok { db with transactions := db.transactions ++ [row] }

/-- The statement `UPDATE users SET balance = balance + $1 WHERE id = $2`: every
row with that id is changed, and a statement that matches no row succeeds. -/
def execUpdateBalance (db : DB) (amount : Int) (userID : String) : DB :=
  let users := db.users.map
    (fun u => if u.id = userID then { u with balance := u.balance + amount } else u)
  { db with users := users }

/-- The query `SELECT balance FROM users WHERE id = $1` followed by `row.Scan`:
`none` is `pgx.ErrNoRows`. -/
def queryBalance (db : DB) (userID : String) : Option Int :=
  (db.users.find? (fun u => u.id == userID)).map (fun u => u.balance)

/-- `func (s *Store) BeginTx`: `s.pool.Begin(ctx)`. -/
def Store.BeginTx (f : Faults) (s : Store) : Except PgError PgxTx × Store :=
  let s1 := { s with calls := s.calls ++ [Call.BeginTx] }
  if f.BeginTx then (.error .unavailable, s1)
  else (.ok { id := s.nextTx, work := s.db, closed := false },
        { s1 with nextTx := s.nextTx + 1 })

/-- The target list of the `INSERT` statement in `insertTransaction`, as it is
written in the source: the text between the parentheses,
`id user_id,amount,time`, cut at its commas, each item cut at its blanks.
There is no comma between `id` and `user_id`. -/
def insertTargets : List (List String) :=
  [["id", "user_id"], ["amount"], ["time"]]

/-- The placeholders of the `VALUES` list of that statement: `$1, $2, $3, $4`. -/
def insertValues : List Nat :=
  [1, 2, 3, 4]

/-- What PostgreSQL asks of an `INSERT` before running it: every item of the
target list is a single column name, and there are as many values as
targets. -/
def insertStatementParses (targets : List (List String)) (values : List Nat) : Bool :=
  targets.all (fun item => item.length == 1) && targets.length == values.length

/-- The faults of a run against PostgreSQL: the server parses the statement
first, so the `Exec` of an `INSERT` that does not parse returns an error
whatever the state of the connection and of the tables. -/
def onPostgres (f : Faults) : Faults :=
  { f with InsertTransactionTx :=
      f.InsertTransactionTx || !insertStatementParses insertTargets insertValues }

/-- `func (s *Store) insertTransaction` run on a transaction handle: one
`Exec` of the `INSERT INTO transactions` statement with the values `tx.ID,
tx.UserID, tx.Amount, tx.CreatedAt`.  Whether the server runs the statement
at all is read from `f.InsertTransactionTx`; the branch that runs it is what
a server accepting the statement does, and `onPostgres` closes it. -/
def Store.insertTransaction (f : Faults) (q : PgxTx) (tx : Transaction) :
    Option StoreError × PgxTx :=
  if q.closed then (some (.insertTransaction .txClosed), q)
  else if f.InsertTransactionTx then (some (.insertTransaction .unavailable), q)
  else
    match execInsert q.work ⟨tx.ID, tx.UserID, tx.Amount, tx.CreatedAt⟩ with
    | .error e => (some (.insertTransaction e), q)
    | .ok db => (none, { q with work := db })

/-- `func (s *Store) InsertTransactionTx`. -/
def Store.InsertTransactionTx (f : Faults) (s : Store) (pgxTx : PgxTx) (tx : Transaction) :
    Option StoreError × PgxTx × Store :=
  let r := Store.insertTransaction f pgxTx tx
  (r.1, r.2, { s with calls := s.calls ++ [Call.InsertTransactionTx pgxTx.id tx] })

/-- `func (s *Store) updateBalance` run on a transaction handle. -/
def Store.updateBalance (f : Faults) (q : PgxTx) (userID : String) (amount : Int) :
    Option StoreError × PgxTx :=
  if q.closed then (some (.updateBalance userID .txClosed), q)
  else if f.UpdateBalanceTx then (some (.updateBalance userID .unavailable), q)
  else (none, { q with work := execUpdateBalance q.work amount userID })

/-- `func (s *Store) UpdateBalanceTx`. -/
def Store.UpdateBalanceTx (f : Faults) (s : Store) (pgxTx : PgxTx) (userID : String)
    (amount : Int) : Option StoreError × PgxTx × Store :=
  let r := Store.updateBalance f pgxTx userID amount
  (r.1, r.2, { s with calls := s.calls ++ [Call.UpdateBalanceTx pgxTx.id userID amount] })

/-- `func (s *Store) getBalance` run on the pool. -/
def Store.getBalance (f : Faults) (db : DB) (userID : String) : Except StoreError Int :=
  if f.GetBalance then .error (.getBalance userID .unavailable)
  else
    match queryBalance db userID with
    | none => .error (.getBalanceNotFound userID)
    | some balance => .ok balance

/-- `func (s *Store) GetBalance`. -/
def Store.GetBalance (f : Faults) (s : Store) (userID : String) :
    Except StoreError Int × Store :=
  (Store.getBalance f s.db userID, { s with calls := s.calls ++ [Call.GetBalance userID] })

/-- `pgx.Tx.Commit`: on success the private copy becomes the committed tables;
on failure nothing is installed.  The handle is closed either way. -/
def PgxTx.Commit (f : Faults) (tx : PgxTx) (s : Store) : Option PgError × PgxTx × Store :=
  let s1 := { s with calls := s.calls ++ [Call.Commit tx.id] }
  if tx.closed then (some .txClosed, tx, s1)
  else if f.Commit then (some .unavailable, { tx with closed := true }, s1)
  else (none, { tx with closed := true }, { s1 with db := tx.work })

/-- `pgx.Tx.Rollback`: drops the private copy; on a closed handle it only
returns `ErrTxClosed`. -/
def PgxTx.Rollback (tx : PgxTx) (s : Store) : Option PgError × PgxTx × Store :=
  let s1 := { s with calls := s.calls ++ [Call.Rollback tx.id] }
  if tx.closed then (some .txClosed, tx, s1)
  else (none, { tx with closed := true }, s1)

/-! ## internal/cache -/

/-- The Redis keys written by `RedisCache`, newest first.  Expiry after the
time-to-live is not modelled. -/
structure Cache where
  entries : List (String × Int)
deriving DecidableEq, Repr

/-- `func (c *RedisCache) balanceKey`. -/
def balanceKey (userID : String) : String :=
  "balance:" ++ userID

/-- Error built by `SetBalance`. -/
inductive CacheError where
  | setBalance (userID : String)
deriving DecidableEq, Repr

/-- `func (c *RedisCache) SetBalance`. -/
def Cache.SetBalance (f : Faults) (c : Cache) (userID : String) (balance : Int) :
    Option CacheError × Cache :=
  if f.SetBalance then (some (.setBalance userID), c)
  else (none, { entries := (balanceKey userID, balance) :: c.entries })

/-! ## internal/handler -/

/-- The fields of `sarama.ConsumerMessage` the code reads.  `Value` is the
payload handed to `json.Unmarshal`. -/
structure ConsumerMessage where
  Topic : String
  Partition : Int
  Offset : Int
  Key : String
  Value : String
deriving DecidableEq, Repr

/-- The errors `Handle` returns, one constructor per `fmt.Errorf` call, with
the arguments of that call.  The two `fail` formats print the context, the
handle and the event; the error of the store call is not among their
arguments. -/
inductive HandleError where
  | unmarshal (cause : String)
  | validation (cause : List FieldError)
  | beginTransaction (cause : PgError)
  | failInsert (pgxTx : Nat) (tx : Transaction)
  | failUpdate (pgxTx : Nat) (userID : String) (amount : Int)
  | commitTransaction (cause : PgError)
deriving DecidableEq, Repr

/-- The conversion `int(tx.Amount)` from `int64` to `int`, for the 64-bit
targets the service is built for: reduction into the signed 64-bit range. -/
def toInt (x : Int) : Int :=
  (x + 2 ^ 63) % 2 ^ 64 - 2 ^ 63

/-- What `Handle` works on: the store, the cache, and the arguments of the
goroutines started with `go func(userID string)` that have not run yet. -/
structure World where
  store : Store
  cache : Cache
  spawned : List String
deriving DecidableEq, Repr

/-- The part of `Handle` after `defer pgxTx.Rollback(ctx)`: insert, update,
commit, then start the cache refresh. -/
def TransactionHandler.handleTx (f : Faults) (tx : Transaction) (pgxTx : PgxTx) (w : World) :
    Option HandleError × PgxTx × World :=
  match w.store.InsertTransactionTx f pgxTx tx with
  | (some _, t1, s1) => (some (.failInsert pgxTx.id tx), t1, { w with store := s1 })
  | (none, t1, s1) =>
    match s1.UpdateBalanceTx f t1 tx.UserID (toInt tx.Amount) with
    | (some _, t2, s2) =>
      (some (.failUpdate pgxTx.id tx.UserID (toInt tx.Amount)), t2, { w with store := s2 })
    | (none, t2, s2) =>
      match t2.Commit f s2 with
      | (some e, t3, s3) => (some (.commitTransaction e), t3, { w with store := s3 })
      | (none, t3, s3) =>
        (none, t3, { w with store := s3, spawned := w.spawned ++ [tx.UserID] })

/-- `func (h *TransactionHandler) Handle`.  `unmarshal` stands for
`json.Unmarshal` into a `models.Transaction`.  The deferred `Rollback` runs
after the body on every path that passed `BeginTx`. -/
def TransactionHandler.Handle (unmarshal : String → Except String Transaction) (f : Faults)
    (msg : ConsumerMessage) (w : World) : Option HandleError × World :=
  match unmarshal msg.Value with
  | .error e => (some (.unmarshal e), w)
  | .ok tx =>
    match tx.Validate with
    | some e => (some (.validation e), w)
    | none =>
      match w.store.BeginTx f with
      | (.error e, s1) => (some (.beginTransaction e), { w with store := s1 })
      | (.ok pgxTx, s1) =>
        let r := TransactionHandler.handleTx f tx pgxTx { w with store := s1 }
        let rb := r.2.1.Rollback r.2.2.store
        (r.1, { r.2.2 with store := rb.2.2 })

/-- The body of the goroutine `go func(userID string)`: read the balance from
the pool and put it in the cache; both errors are only logged. -/
def TransactionHandler.refresh (f : Faults) (userID : String) (w : World) : World :=
  match w.store.GetBalance f userID with
  | (.error _, s1) => { w with store := s1 }
  | (.ok bal, s1) => { w with store := s1, cache := (w.cache.SetBalance f userID bal).2 }

/-- Runs the goroutines started so far, oldest first. -/
def TransactionHandler.runSpawned (f : Faults) (w : World) : World :=
  w.spawned.foldl (fun acc userID => TransactionHandler.refresh f userID acc)
    { w with spawned := [] }

/-- One call of `Handle` followed by the goroutines it started: the value
`Handle` returned, and the world once the refresh has run. -/
def TransactionHandler.HandleAndRefresh (unmarshal : String → Except String Transaction)
    (f : Faults) (msg : ConsumerMessage) (w : World) : Option HandleError × World :=
  let r := TransactionHandler.Handle unmarshal f msg w
  (r.1, TransactionHandler.runSpawned f r.2)

/-! ## internal/kafka -/

/-- What one pass through the `select` of `ConsumeClaim` receives. -/
inductive Recv where
  | message (m : ConsumerMessage)
  | closed
  | done
deriving DecidableEq, Repr

/-- State of one `ConsumeClaim` run: the world of the handler, the handler
calls made so far with what each returned, the messages passed to
`sess.MarkMessage`, and whether the function has returned (it only ever
returns nil). -/
structure ClaimRun (σ ε : Type) where
  world : σ
  handled : List (ConsumerMessage × Option ε)
  marked : List ConsumerMessage
  returned : Bool

/-- `func (c *Consumer) ConsumeClaim`, run over the list of things its `select`
receives.  A nil message (`Recv.closed`) and a cancelled session context
(`Recv.done`) return nil; a handler error skips `MarkMessage` and goes round
the loop again (`continue`); when the list is used up the loop is waiting in
`select`. -/
def Consumer.ConsumeClaim {σ ε : Type} (handler : ConsumerMessage → σ → Option ε × σ) :
    List Recv → ClaimRun σ ε → ClaimRun σ ε
  | [], r => r
  | .closed :: _, r => { r with returned := true }
  | .done :: _, r => { r with returned := true }
  | .message m :: rest, r =>
    match handler m r.world with
    | (some e, w) =>
      Consumer.ConsumeClaim handler rest
        { r with world := w, handled := r.handled ++ [(m, some e)] }
    | (none, w) =>
      Consumer.ConsumeClaim handler rest
        { r with world := w, handled := r.handled ++ [(m, none)], marked := r.marked ++ [m] }

/-- A fresh run: nothing handled, nothing marked. -/
def ClaimRun.start {σ : Type} (ε : Type) (w : σ) : ClaimRun σ ε :=
  { world := w, handled := [], marked := [], returned := false }

/-- The messages received before the first nil message or cancellation. -/
def delivered : List Recv → List ConsumerMessage
  | [] => []
  | .closed :: _ => []
  | .done :: _ => []
  | .message m :: rest => m :: delivered rest

/-- A Go channel nothing is ever sent on, such as `ready chan bool`. -/
inductive Chan where
  | opened
  | closed
deriving DecidableEq, Repr

/-- The builtin `close`: closing a closed channel panics. -/
def closeChan : Chan → Except String Chan
  | .opened => .ok .closed
  | .closed => .error "close of closed channel"

/-- The field of `kafka.Consumer` that changes: the `ready` channel. -/
structure Consumer where
  ready : Chan
deriving DecidableEq, Repr

/-- The consumer `NewConsumer` returns: `ready: make(chan bool)`. -/
def NewConsumer : Consumer :=
  { ready := .opened }

/-- `func (c *Consumer) Setup`: `close(c.ready)`, then `return nil`.
`Except.error` is a panic. -/
def Consumer.Setup (c : Consumer) : Except String (Option String × Consumer) :=
  match closeChan c.ready with
  | .error p => .error p
  | .ok ch => .ok (none, { c with ready := ch })

/-- `func (c *Consumer) Cleanup`. -/
def Consumer.Cleanup (c : Consumer) : Option String × Consumer :=
  (none, c)

/-- The `Setup` calls of `n` consecutive sessions on one consumer, each
followed by the `Cleanup` of that session: the values `Setup` returned, or
the panic. -/
def Consumer.sessions : Nat → Consumer → Except String (List (Option String) × Consumer)
  | 0, c => .ok ([], c)
  | n + 1, c =>
    match c.Setup with
    | .error p => .error p
    | .ok (r, c1) =>
      match Consumer.sessions n (c1.Cleanup).2 with
      | .error p => .error p
      | .ok (rs, c2) => .ok (r :: rs, c2)

/-- What one call of `c.group.Consume` does: it fails before a session is set
up, or it runs a session (calling `Setup`) and returns `err`; `ctxErr` says
whether `ctx.Err()` is non-nil afterwards. -/
inductive ConsumeResult where
  | joinFailed (err : String)
  | session (err : Option String) (ctxErr : Bool)
deriving DecidableEq, Repr

/-- The second goroutine of `Start`: the loop around `c.group.Consume`.
Returns the consumer when the goroutine ends, waits or panics, with the
panic if there was one. -/
def Consumer.consumeLoop : List ConsumeResult → Consumer → Consumer × Option String
  | [], c => (c, none)
  | .joinFailed _ :: _, c => (c, none)
  | .session err ctxErr :: rest, c =>
    match c.Setup with
    | .error p => (c, some p)
    | .ok (_, c1) =>
      if err.isSome then (c1, none)
      else if ctxErr then (c1, none)
      else Consumer.consumeLoop rest c1

/-- How a call ends. -/
inductive Outcome (α : Type) where
  | returned (a : α)
  | blocked
deriving DecidableEq, Repr

/-- `func (c *Consumer) Start`: after starting the goroutines it receives
from `c.ready`, which succeeds once the channel is closed, and then returns
nil. -/
def Consumer.Start (consumes : List ConsumeResult) (c : Consumer) : Outcome (Option String) :=
  match (Consumer.consumeLoop consumes c).1.ready with
  | .closed => .returned none
  | .opened => .blocked

/-! ## Sample data -/

/-- The instant 2024-01-01T00:00:00Z. -/
def sampleTime : Time :=
  { sec := 63839664000, nsec := 0, loc := none }

/-- The event of the end-to-end scenario: id t1, user u1, amount 100, bonus. -/
def txT1 : Transaction :=
  { ID := "t1", UserID := "u1", Amount := 100, Type_ := "bonus", CreatedAt := sampleTime }

/-- An event with amount 0. -/
def txZero : Transaction :=
  { ID := "t2", UserID := "u1", Amount := 0, Type_ := "bonus", CreatedAt := sampleTime }

/-- JSON text of `txT1`. -/
def payloadT1 : String :=
  "\x7b\x22id\x22:\x22t1\x22,\x22user_id\x22:\x22u1\x22,\x22amount\x22:100,\x22type\x22:\x22bonus\x22,\x22created_at\x22:\x222024-01-01T00:00:00Z\x22\x7d"

/-- JSON text of `txZero`. -/
def payloadZero : String :=
  "\x7b\x22id\x22:\x22t2\x22,\x22user_id\x22:\x22u1\x22,\x22amount\x22:0,\x22type\x22:\x22bonus\x22,\x22created_at\x22:\x222024-01-01T00:00:00Z\x22\x7d"

/-- A payload that is not JSON: a lone opening brace. -/
def payloadBroken : String :=
  "\x7b"

/-- What `json.Unmarshal` gives on the sample payloads; every other payload
is treated like the broken one. -/
def sampleUnmarshal (value : String) : Except String Transaction :=
  if value = payloadT1 then .ok txT1
  else if value = payloadZero then .ok txZero
  else .error "unexpected end of JSON input"

/-- A message at the given offset of partition 0 of the topic. -/
def sampleMessage (offset : Int) (value : String) : ConsumerMessage :=
  { Topic := "transactions", Partition := 0, Offset := offset, Key := "", Value := value }

/-- No call fails. -/
def noFaults : Faults :=
  { BeginTx := false, InsertTransactionTx := false, UpdateBalanceTx := false,
    Commit := false, GetBalance := false, SetBalance := false }

/-- A world with the given tables, no call made yet and an empty cache. -/
def worldOf (db : DB) : World :=
  { store := { db := db, nextTx := 0, calls := [] }, cache := { entries := [] }, spawned := [] }

/-- User u1 has balance 40; no transaction is recorded. -/
def dbU1 : DB :=
  { transactions := [], users := [{ id := "u1", balance := 40 }] }

/-- User u1 has balance 140 and transaction t1 is recorded. -/
def dbAfterT1 : DB :=
  { transactions := [{ id := "t1", user_id := "u1", amount := 100, time := sampleTime }],
    users := [{ id := "u1", balance := 140 }] }

/-- The messages a list of handler calls led to mark: those for which the
handler returned nil. -/
def markedOf {ε : Type} (hs : List (ConsumerMessage × Option ε)) : List ConsumerMessage :=
  hs.filterMap (fun p => match p.2 with
    | none => some p.1
    | some _ => none)

/-- A handler that fails on the message at offset 0 and accepts the others. -/
def failAtZero (m : ConsumerMessage) (w : Unit) : Option String × Unit :=
  (if m.Offset = 0 then some "store down" else none, w)

/-- Two consecutive messages of one partition. -/
def msg0 : ConsumerMessage := sampleMessage 0 payloadT1

/-- The message after `msg0`. -/
def msg1 : ConsumerMessage := sampleMessage 1 payloadT1

/-- The handler `main` installs: `txHandler.Handle`; `faults m` says which
calls fail while message `m` is handled. -/
def TransactionHandler.handlerFunc (unmarshal : String → Except String Transaction)
    (faults : ConsumerMessage → Faults) (m : ConsumerMessage) (w : World) :
    Option HandleError × World :=
  TransactionHandler.Handle unmarshal (faults m) m w

/-- The payload is malformed JSON, or decodes to an event that fails
`Validate`. -/
def isRejected (unmarshal : String → Except String Transaction) (value : String) : Bool :=
  match unmarshal value with
  | .error _ => true
  | .ok tx => tx.Validate.isSome

/-- The id is already in the `transactions` table. -/
def isDuplicate (db : DB) (tx : Transaction) : Bool :=
  db.transactions.any (fun r => r.id == tx.ID)

/-- The insert fails for an infrastructure reason; nothing else does. -/
def insertDown : Faults :=
  { noFaults with InsertTransactionTx := true }

/-- The commit fails; nothing else does. -/
def commitDown : Faults :=
  { noFaults with Commit := true }

/-- Both calls of the cache refresh fail; nothing else does. -/
def refreshDown : Faults :=
  { noFaults with GetBalance := true, SetBalance := true }

/-- A message with a payload that is not JSON. -/
def msgBroken : ConsumerMessage := sampleMessage 0 payloadBroken

/-- A message whose event has amount 0. -/
def msgZero : ConsumerMessage := sampleMessage 1 payloadZero

/-- A message carrying the event `txT1`. -/
def msgT1 : ConsumerMessage := sampleMessage 2 payloadT1

/-! ## Theorems -/

/-! ### Validation -/

/-- C7: every event accepted by `Transaction.Validate` has a non-empty id, a
non-empty user id, an amount different from 0 and a type that is one of
purchase, refund, bonus; by contraposition an event violating one of the four
is rejected. -/
theorem Validate_accepts_only_well_formed (t : Transaction) (h : t.Validate = none) :
    t.ID ≠ "" ∧ t.UserID ≠ "" ∧ t.Amount ≠ 0 ∧
      (t.Type_ = "purchase" ∨ t.Type_ = "refund" ∨ t.Type_ = "bonus") := by
  have hnil : t.fieldErrors = [] := by
    unfold Transaction.Validate at h
    cases hfe : t.fieldErrors with
    | nil => rfl
    | cons e es => rw [hfe] at h; cases h
  unfold Transaction.fieldErrors at hnil
  simp only [List.append_eq_nil] at hnil
  obtain ⟨⟨⟨⟨h1, h2⟩, h3⟩, h4⟩, _⟩ := hnil
  refine ⟨?_, ?_, ?_, ?_⟩
  · intro hid; simp [requiredString, hid] at h1
  · intro hid; simp [requiredString, hid] at h2
  · intro hz; simp [checkAmount, hz] at h3
  · unfold checkType at h4
    split at h4
    · cases h4
    · split at h4
      · rename_i hmem
        simpa [typeOneOf] using hmem
      · cases h4

/-- Witness for C7: the sample event is accepted and has the four properties. -/
theorem Validate_accepts_only_well_formed_witness :
    txT1.Validate = none ∧
      (txT1.ID ≠ "" ∧ txT1.UserID ≠ "" ∧ txT1.Amount ≠ 0 ∧
        (txT1.Type_ = "purchase" ∨ txT1.Type_ = "refund" ∨ txT1.Type_ = "bonus")) :=
  ⟨by decide, Validate_accepts_only_well_formed txT1 (by decide)⟩

/-! ### The partition loop -/

theorem markedOf_append {ε : Type} (xs ys : List (ConsumerMessage × Option ε)) :
    markedOf (xs ++ ys) = markedOf xs ++ markedOf ys := by
  simp [markedOf, List.filterMap_append]

theorem mem_markedOf {ε : Type} (hs : List (ConsumerMessage × Option ε)) (m : ConsumerMessage) :
    m ∈ markedOf hs ↔ (m, none) ∈ hs := by
  unfold markedOf
  rw [List.mem_filterMap]
  constructor
  · rintro ⟨⟨a, o⟩, hmem, hsome⟩
    cases o with
    | none => simp at hsome; subst hsome; exact hmem
    | some e => simp at hsome
  · intro hmem
    exact ⟨(m, none), hmem, rfl⟩

theorem ConsumeClaim_handled_fst {σ ε : Type} (handler : ConsumerMessage → σ → Option ε × σ)
    (evs : List Recv) (r : ClaimRun σ ε) :
    (Consumer.ConsumeClaim handler evs r).handled.map Prod.fst =
      r.handled.map Prod.fst ++ delivered evs := by
  induction evs generalizing r with
  | nil => simp [Consumer.ConsumeClaim, delivered]
  | cons ev rest ih =>
    cases ev with
    | closed => simp [Consumer.ConsumeClaim, delivered]
    | done => simp [Consumer.ConsumeClaim, delivered]
    | message m =>
      rcases hh : handler m r.world with ⟨_ | e, w⟩ <;>
        simp [Consumer.ConsumeClaim, delivered, hh, ih]

theorem ConsumeClaim_marked_of_handled {σ ε : Type}
    (handler : ConsumerMessage → σ → Option ε × σ) (evs : List Recv) (r : ClaimRun σ ε)
    (hr : r.marked = markedOf r.handled) :
    (Consumer.ConsumeClaim handler evs r).marked =
      markedOf (Consumer.ConsumeClaim handler evs r).handled := by
  induction evs generalizing r with
  | nil => simpa [Consumer.ConsumeClaim] using hr
  | cons ev rest ih =>
    cases ev with
    | closed => simpa [Consumer.ConsumeClaim] using hr
    | done => simpa [Consumer.ConsumeClaim] using hr
    | message m =>
      rcases hh : handler m r.world with ⟨_ | e, w⟩
      · simp only [Consumer.ConsumeClaim, hh]
        apply ih
        simp [markedOf_append, hr, markedOf]
      · simp only [Consumer.ConsumeClaim, hh]
        apply ih
        simp [markedOf_append, hr, markedOf]

theorem ConsumeClaim_marked_append {σ ε : Type}
    (handler : ConsumerMessage → σ → Option ε × σ) (evs : List Recv) (r : ClaimRun σ ε) :
    (Consumer.ConsumeClaim handler evs r).marked =
      r.marked ++ (Consumer.ConsumeClaim handler evs (ClaimRun.start ε r.world)).marked := by
  induction evs generalizing r with
  | nil => simp [Consumer.ConsumeClaim, ClaimRun.start]
  | cons ev rest ih =>
    cases ev with
    | closed => simp [Consumer.ConsumeClaim, ClaimRun.start]
    | done => simp [Consumer.ConsumeClaim, ClaimRun.start]
    | message m =>
      rcases hh : handler m r.world with ⟨_ | e, w⟩
      · simp only [Consumer.ConsumeClaim, hh, ClaimRun.start]
        rw [ih, ih { world := w, handled := [] ++ [(m, none)], marked := [] ++ [m], returned := false }]
        simp [ClaimRun.start]
      · simp only [Consumer.ConsumeClaim, hh, ClaimRun.start]
        rw [ih, ih { world := w, handled := [] ++ [(m, some e)], marked := [], returned := false }]
        simp [ClaimRun.start]

theorem snd_unique_of_nodup_fst {α β γ : Type} (key : α → γ) (l : List (α × β))
    (hnd : (l.map (fun p => key p.1)).Nodup) (a b : α) (x y : β)
    (ha : (a, x) ∈ l) (hb : (b, y) ∈ l) (hk : key a = key b) : x = y := by
  induction l with
  | nil => cases ha
  | cons p ps ih =>
    simp only [List.map_cons, List.nodup_cons, List.mem_map, not_exists, not_and] at hnd
    rcases List.mem_cons.mp ha with rfl | ha2
    · rcases List.mem_cons.mp hb with hb1 | hb2
      · cases hb1; rfl
      · exact absurd hk.symm (hnd.1 (b, y) hb2)
    · rcases List.mem_cons.mp hb with rfl | hb2
      · exact absurd hk (hnd.1 (a, x) ha2)
      · exact ih hnd.2 ha2 hb2

/-- C1 (amended): over a sequence of messages with strictly increasing offsets
the partition loop does not stop at a handler error.  Every message received
before the channel is closed or the context cancelled is passed to the
handler, in order; the messages marked are exactly those for which the
handler returned nil; and the offset of a message for which the handler
returned an error is not marked in that run. -/
theorem ConsumeClaim_continues_after_error {σ ε : Type}
    (handler : ConsumerMessage → σ → Option ε × σ) (evs : List Recv) (w : σ)
    (hord : (delivered evs).Pairwise (fun a b => a.Offset < b.Offset)) :
    (Consumer.ConsumeClaim handler evs (ClaimRun.start ε w)).handled.map Prod.fst
        = delivered evs ∧
      (Consumer.ConsumeClaim handler evs (ClaimRun.start ε w)).marked
        = markedOf (Consumer.ConsumeClaim handler evs (ClaimRun.start ε w)).handled ∧
      ∀ m e, (m, some e) ∈ (Consumer.ConsumeClaim handler evs (ClaimRun.start ε w)).handled →
        m.Offset ∉ (Consumer.ConsumeClaim handler evs (ClaimRun.start ε w)).marked.map
          (fun x => x.Offset) := by
  have hfst := ConsumeClaim_handled_fst handler evs (ClaimRun.start ε w)
  have hmk := ConsumeClaim_marked_of_handled handler evs (ClaimRun.start ε w)
    (by simp [ClaimRun.start, markedOf])
  simp only [ClaimRun.start, List.map_nil, List.nil_append] at hfst
  refine ⟨hfst, hmk, ?_⟩
  intro m e hmem hoff
  rw [hmk, List.mem_map] at hoff
  obtain ⟨m2, hm2, heq⟩ := hoff
  rw [mem_markedOf] at hm2
  have hnd : ((Consumer.ConsumeClaim handler evs (ClaimRun.start ε w)).handled.map
      (fun p => p.1.Offset)).Nodup := by
    have h1 : (Consumer.ConsumeClaim handler evs (ClaimRun.start ε w)).handled.map
        (fun p => p.1.Offset) = (delivered evs).map (fun x => x.Offset) := by
      simp only [ClaimRun.start]
      rw [← hfst, List.map_map]
      rfl
    rw [h1]
    have hp : ((delivered evs).map (fun x => x.Offset)).Pairwise (fun a b => a < b) := by
      rw [List.pairwise_map]
      exact hord
    exact hp.imp (fun h => ne_of_lt h)
  have := snd_unique_of_nodup_fst (fun x : ConsumerMessage => x.Offset) _ hnd m2 m none (some e)
    hm2 hmem heq
  cases this

/-- Witness for C1: a handler failing at offset 0, two messages, then the
channel is closed. -/
theorem ConsumeClaim_continues_after_error_witness :
    (delivered [.message msg0, .message msg1, .closed]).Pairwise
        (fun a b => a.Offset < b.Offset) ∧
      ((Consumer.ConsumeClaim failAtZero [.message msg0, .message msg1, .closed]
          (ClaimRun.start String ())).handled.map Prod.fst
        = delivered [.message msg0, .message msg1, .closed] ∧
      (Consumer.ConsumeClaim failAtZero [.message msg0, .message msg1, .closed]
          (ClaimRun.start String ())).marked
        = markedOf (Consumer.ConsumeClaim failAtZero [.message msg0, .message msg1, .closed]
          (ClaimRun.start String ())).handled ∧
      ∀ m e, (m, some e) ∈ (Consumer.ConsumeClaim failAtZero
          [.message msg0, .message msg1, .closed] (ClaimRun.start String ())).handled →
        m.Offset ∉ (Consumer.ConsumeClaim failAtZero [.message msg0, .message msg1, .closed]
          (ClaimRun.start String ())).marked.map (fun x => x.Offset)) :=
  ⟨by simp [delivered, msg0, msg1, sampleMessage],
   ConsumeClaim_continues_after_error failAtZero [.message msg0, .message msg1, .closed] ()
     (by simp [delivered, msg0, msg1, sampleMessage])⟩

/-- C1 as stated fails: the handler returns an error for the message at offset
0, yet the message at offset 1 is passed to the handler and marked. -/
theorem ConsumeClaim_stops_on_error_counterexample :
    (failAtZero msg0 ()).1 = some "store down" ∧
      (Consumer.ConsumeClaim failAtZero [.message msg0, .message msg1, .closed]
          (ClaimRun.start String ())).handled = [(msg0, some "store down"), (msg1, none)] ∧
      (Consumer.ConsumeClaim failAtZero [.message msg0, .message msg1, .closed]
          (ClaimRun.start String ())).marked = [msg1] ∧
      msg0.Offset < msg1.Offset := by
  refine ⟨rfl, ?_, ?_, by decide⟩ <;>
    simp [Consumer.ConsumeClaim, ClaimRun.start, failAtZero, msg0, msg1, sampleMessage]

/-! ### Rejected payloads -/

theorem Handle_of_rejected (unmarshal : String → Except String Transaction) (f : Faults)
    (msg : ConsumerMessage) (w : World) (h : isRejected unmarshal msg.Value = true) :
    (TransactionHandler.Handle unmarshal f msg w).1 ≠ none ∧
      (TransactionHandler.Handle unmarshal f msg w).2 = w := by
  unfold isRejected at h
  unfold TransactionHandler.Handle
  cases hdec : unmarshal msg.Value with
  | error e => simp
  | ok tx =>
    rw [hdec] at h
    cases hval : tx.Validate with
    | none => simp [hval] at h
    | some e => simp [hval]

/-- C6: for a message whose payload is malformed JSON or decodes to an event
that fails validation, `Handle` returns a non-nil error and leaves the world
as it was: no store call is made (the call list is unchanged, so `BeginTx`,
`InsertTransactionTx`, `UpdateBalanceTx` and `Commit` are not invoked) and no
cache refresh is started. -/
theorem Handle_rejected_makes_no_store_call (unmarshal : String → Except String Transaction)
    (f : Faults) (msg : ConsumerMessage) (w : World)
    (h : isRejected unmarshal msg.Value = true) :
    (TransactionHandler.Handle unmarshal f msg w).1 ≠ none ∧
      (TransactionHandler.Handle unmarshal f msg w).2.store.calls = w.store.calls ∧
      (TransactionHandler.Handle unmarshal f msg w).2.store.db = w.store.db ∧
      (TransactionHandler.Handle unmarshal f msg w).2.spawned = w.spawned ∧
      (TransactionHandler.Handle unmarshal f msg w).2 = w := by
  obtain ⟨h1, h2⟩ := Handle_of_rejected unmarshal f msg w h
  exact ⟨h1, by rw [h2], by rw [h2], by rw [h2], h2⟩

/-- Witness for C6: the event with amount 0. -/
theorem Handle_rejected_makes_no_store_call_witness :
    isRejected sampleUnmarshal msgZero.Value = true ∧
      ((TransactionHandler.Handle sampleUnmarshal noFaults msgZero (worldOf dbU1)).1 ≠ none ∧
      (TransactionHandler.Handle sampleUnmarshal noFaults msgZero (worldOf dbU1)).2.store.calls
        = (worldOf dbU1).store.calls ∧
      (TransactionHandler.Handle sampleUnmarshal noFaults msgZero (worldOf dbU1)).2.store.db
        = (worldOf dbU1).store.db ∧
      (TransactionHandler.Handle sampleUnmarshal noFaults msgZero (worldOf dbU1)).2.spawned
        = (worldOf dbU1).spawned ∧
      (TransactionHandler.Handle sampleUnmarshal noFaults msgZero (worldOf dbU1)).2
        = worldOf dbU1) :=
  ⟨by decide, Handle_rejected_makes_no_store_call sampleUnmarshal noFaults msgZero
    (worldOf dbU1) (by decide)⟩

theorem ConsumeClaim_marked_accepted (unmarshal : String → Except String Transaction)
    (faults : ConsumerMessage → Faults) (evs : List Recv) (r : ClaimRun World HandleError)
    (hr : ∀ x ∈ r.marked, isRejected unmarshal x.Value = false) :
    ∀ x ∈ (Consumer.ConsumeClaim (TransactionHandler.handlerFunc unmarshal faults) evs r).marked,
      isRejected unmarshal x.Value = false := by
  induction evs generalizing r with
  | nil => simpa [Consumer.ConsumeClaim] using hr
  | cons ev rest ih =>
    cases ev with
    | closed => simpa [Consumer.ConsumeClaim] using hr
    | done => simpa [Consumer.ConsumeClaim] using hr
    | message m =>
      rcases hh : TransactionHandler.handlerFunc unmarshal faults m r.world with ⟨_ | e, w⟩
      · simp only [Consumer.ConsumeClaim, hh]
        apply ih
        intro x hx
        rcases List.mem_append.mp hx with hx1 | hx2
        · exact hr x hx1
        · simp only [List.mem_singleton] at hx2
          subst hx2
          cases hrej : isRejected unmarshal x.Value with
          | false => rfl
          | true =>
            have := (Handle_of_rejected unmarshal (faults x) x r.world hrej).1
            unfold TransactionHandler.handlerFunc at hh
            rw [hh] at this
            exact absurd rfl this
      · simp only [Consumer.ConsumeClaim, hh]
        exact ih _ hr

/-- C2 (amended): for a message whose payload is malformed JSON or fails
`Transaction.Validate`, `Handle` returns a non-nil error, and a `ConsumeClaim`
run with `Handle` as the handler never passes that message to `MarkMessage`,
whatever else the run receives. -/
theorem ConsumeClaim_never_marks_rejected (unmarshal : String → Except String Transaction)
    (faults : ConsumerMessage → Faults) (evs : List Recv) (w : World) (m : ConsumerMessage)
    (h : isRejected unmarshal m.Value = true) :
    (TransactionHandler.Handle unmarshal (faults m) m w).1 ≠ none ∧
      m ∉ (Consumer.ConsumeClaim (TransactionHandler.handlerFunc unmarshal faults) evs
        (ClaimRun.start HandleError w)).marked := by
  refine ⟨(Handle_of_rejected unmarshal (faults m) m w h).1, ?_⟩
  intro hmem
  have := ConsumeClaim_marked_accepted unmarshal faults evs (ClaimRun.start HandleError w)
    (by simp [ClaimRun.start]) m hmem
  rw [h] at this
  cases this

/-- Witness for C2 (amended): the broken payload, followed by a good message. -/
theorem ConsumeClaim_never_marks_rejected_witness :
    isRejected sampleUnmarshal msgBroken.Value = true ∧
      ((TransactionHandler.Handle sampleUnmarshal noFaults msgBroken (worldOf dbU1)).1 ≠ none ∧
      msgBroken ∉ (Consumer.ConsumeClaim
        (TransactionHandler.handlerFunc sampleUnmarshal (fun _ => noFaults))
        [.message msgBroken, .message msgT1, .closed]
        (ClaimRun.start HandleError (worldOf dbU1))).marked) :=
  ⟨by decide, ConsumeClaim_never_marks_rejected sampleUnmarshal (fun _ => noFaults)
    [.message msgBroken, .message msgT1, .closed] (worldOf dbU1) msgBroken (by decide)⟩

/-- C2 as stated fails: the broken payload and the event with amount 0 are
both rejected, and the run marks neither of them. -/
theorem ConsumeClaim_marks_rejected_counterexample :
    isRejected sampleUnmarshal msgBroken.Value = true ∧
      isRejected sampleUnmarshal msgZero.Value = true ∧
      (Consumer.ConsumeClaim (TransactionHandler.handlerFunc sampleUnmarshal (fun _ => noFaults))
        [.message msgBroken, .message msgZero, .closed]
        (ClaimRun.start HandleError (worldOf dbU1))).marked = [] ∧
      (Consumer.ConsumeClaim (TransactionHandler.handlerFunc sampleUnmarshal (fun _ => noFaults))
        [.message msgBroken, .message msgZero, .closed]
        (ClaimRun.start HandleError (worldOf dbU1))).returned = true := by
  decide

/-! ### Insert failures -/

theorem insertTransaction_fails (f : Faults) (q : PgxTx) (tx : Transaction)
    (hq : q.closed = false)
    (hfail : f.InsertTransactionTx = true ∨ isDuplicate q.work tx = true) :
    ∃ e, Store.insertTransaction f q tx = (some e, q) := by
  unfold Store.insertTransaction
  rw [hq]
  cases hf : f.InsertTransactionTx with
  | true => exact ⟨.insertTransaction .unavailable, by simp⟩
  | false =>
    rcases hfail with h | h
    · rw [hf] at h; cases h
    · unfold isDuplicate at h
      exact ⟨.insertTransaction .duplicateKey, by simp [execInsert, h]⟩

theorem Handle_insert_fails (unmarshal : String → Except String Transaction) (f : Faults)
    (msg : ConsumerMessage) (w : World) (tx : Transaction)
    (hdec : unmarshal msg.Value = .ok tx) (hval : tx.Validate = none)
    (hb : f.BeginTx = false)
    (hfail : f.InsertTransactionTx = true ∨ isDuplicate w.store.db tx = true) :
    TransactionHandler.Handle unmarshal f msg w =
      (some (.failInsert w.store.nextTx tx),
        { w with store :=
          { db := w.store.db, nextTx := w.store.nextTx + 1,
            calls := w.store.calls ++ [Call.BeginTx,
              Call.InsertTransactionTx w.store.nextTx tx, Call.Rollback w.store.nextTx] } }) := by
  obtain ⟨e, he⟩ := insertTransaction_fails f
    { id := w.store.nextTx, work := w.store.db, closed := false } tx rfl hfail
  simp [TransactionHandler.Handle, hdec, hval, Store.BeginTx, hb, TransactionHandler.handleTx,
    Store.InsertTransactionTx, he, PgxTx.Rollback]

/-- C3 (amended): for every valid event, when `InsertTransactionTx` fails,
whether because the identifier is already in the table or for another reason,
`Handle` returns the same error, built from the handle and the event and not
from the cause; the tables are unchanged, and the `ConsumeClaim` iteration
that handled the message marks nothing: the marks of the run are those of the
rest of the run. -/
theorem Handle_insert_failure_hides_cause (unmarshal : String → Except String Transaction)
    (faults : ConsumerMessage → Faults) (msg : ConsumerMessage) (w : World) (tx : Transaction)
    (rest : List Recv)
    (hdec : unmarshal msg.Value = .ok tx) (hval : tx.Validate = none)
    (hb : (faults msg).BeginTx = false)
    (hfail : (faults msg).InsertTransactionTx = true ∨ isDuplicate w.store.db tx = true) :
    (TransactionHandler.Handle unmarshal (faults msg) msg w).1
        = some (.failInsert w.store.nextTx tx) ∧
      (TransactionHandler.Handle unmarshal (faults msg) msg w).2.store.db = w.store.db ∧
      (Consumer.ConsumeClaim (TransactionHandler.handlerFunc unmarshal faults)
          (.message msg :: rest) (ClaimRun.start HandleError w)).marked
        = (Consumer.ConsumeClaim (TransactionHandler.handlerFunc unmarshal faults) rest
          (ClaimRun.start HandleError
            (TransactionHandler.Handle unmarshal (faults msg) msg w).2)).marked := by
  have hH := Handle_insert_fails unmarshal (faults msg) msg w tx hdec hval hb hfail
  refine ⟨by rw [hH], by rw [hH], ?_⟩
  have hh : TransactionHandler.handlerFunc unmarshal faults msg w =
      (some (.failInsert w.store.nextTx tx),
        (TransactionHandler.Handle unmarshal (faults msg) msg w).2) := by
    unfold TransactionHandler.handlerFunc
    rw [hH]
  simp only [Consumer.ConsumeClaim, ClaimRun.start, hh]
  rw [ConsumeClaim_marked_append]
  simp [ClaimRun.start]

/-- Witness for C3 (amended): the event t1 is delivered again after it was
committed. -/
theorem Handle_insert_failure_hides_cause_witness :
    sampleUnmarshal msgT1.Value = .ok txT1 ∧ txT1.Validate = none ∧
      noFaults.BeginTx = false ∧
      (noFaults.InsertTransactionTx = true ∨ isDuplicate (worldOf dbAfterT1).store.db txT1 = true) ∧
      ((TransactionHandler.Handle sampleUnmarshal noFaults msgT1 (worldOf dbAfterT1)).1
        = some (.failInsert (worldOf dbAfterT1).store.nextTx txT1) ∧
      (TransactionHandler.Handle sampleUnmarshal noFaults msgT1 (worldOf dbAfterT1)).2.store.db
        = (worldOf dbAfterT1).store.db ∧
      (Consumer.ConsumeClaim (TransactionHandler.handlerFunc sampleUnmarshal (fun _ => noFaults))
          (.message msgT1 :: [.closed]) (ClaimRun.start HandleError (worldOf dbAfterT1))).marked
        = (Consumer.ConsumeClaim (TransactionHandler.handlerFunc sampleUnmarshal (fun _ => noFaults))
          [.closed] (ClaimRun.start HandleError
            (TransactionHandler.Handle sampleUnmarshal noFaults msgT1
              (worldOf dbAfterT1)).2)).marked) :=
  ⟨rfl, by decide, rfl, Or.inr (by decide),
   Handle_insert_failure_hides_cause sampleUnmarshal (fun _ => noFaults) msgT1
     (worldOf dbAfterT1) txT1 [.closed] rfl (by decide) rfl (Or.inr (by decide))⟩

/-- C3 as stated fails: the store reports a duplicate key in one run and an
unavailable server in the other, `Handle` returns the same error in both, and
the redelivered message is not marked. -/
theorem Handle_duplicate_distinguished_counterexample :
    (Store.insertTransaction noFaults { id := 0, work := dbAfterT1, closed := false } txT1).1
        = some (.insertTransaction .duplicateKey) ∧
      (Store.insertTransaction insertDown { id := 0, work := dbU1, closed := false } txT1).1
        = some (.insertTransaction .unavailable) ∧
      (TransactionHandler.Handle sampleUnmarshal noFaults msgT1 (worldOf dbAfterT1)).1
        = some (.failInsert 0 txT1) ∧
      (TransactionHandler.Handle sampleUnmarshal insertDown msgT1 (worldOf dbU1)).1
        = some (.failInsert 0 txT1) ∧
      (Consumer.ConsumeClaim (TransactionHandler.handlerFunc sampleUnmarshal (fun _ => noFaults))
          [.message msgT1, .closed] (ClaimRun.start HandleError (worldOf dbAfterT1))).marked
        = [] := by
  decide

/-! ### The transactional path -/

theorem Handle_begin_fails (unmarshal : String → Except String Transaction) (f : Faults)
    (msg : ConsumerMessage) (w : World) (tx : Transaction)
    (hdec : unmarshal msg.Value = .ok tx) (hval : tx.Validate = none)
    (hb : f.BeginTx = true) :
    TransactionHandler.Handle unmarshal f msg w =
      (some (.beginTransaction .unavailable),
        { w with store := { w.store with calls := w.store.calls ++ [Call.BeginTx] } }) := by
  simp [TransactionHandler.Handle, hdec, hval, Store.BeginTx, hb]

theorem Handle_update_fails (unmarshal : String → Except String Transaction) (f : Faults)
    (msg : ConsumerMessage) (w : World) (tx : Transaction)
    (hdec : unmarshal msg.Value = .ok tx) (hval : tx.Validate = none)
    (hnew : isDuplicate w.store.db tx = false)
    (hb : f.BeginTx = false) (hi : f.InsertTransactionTx = false)
    (hu : f.UpdateBalanceTx = true) :
    TransactionHandler.Handle unmarshal f msg w =
      (some (.failUpdate w.store.nextTx tx.UserID (toInt tx.Amount)),
        { w with store :=
          { db := w.store.db, nextTx := w.store.nextTx + 1,
            calls := w.store.calls ++ [Call.BeginTx,
              Call.InsertTransactionTx w.store.nextTx tx,
              Call.UpdateBalanceTx w.store.nextTx tx.UserID (toInt tx.Amount),
              Call.Rollback w.store.nextTx] } }) := by
  unfold isDuplicate at hnew
  simp [TransactionHandler.Handle, hdec, hval, Store.BeginTx, hb, TransactionHandler.handleTx,
    Store.InsertTransactionTx, Store.insertTransaction, hi, execInsert, hnew,
    Store.UpdateBalanceTx, Store.updateBalance, hu, PgxTx.Rollback]

theorem Handle_commit_fails (unmarshal : String → Except String Transaction) (f : Faults)
    (msg : ConsumerMessage) (w : World) (tx : Transaction)
    (hdec : unmarshal msg.Value = .ok tx) (hval : tx.Validate = none)
    (hnew : isDuplicate w.store.db tx = false)
    (hb : f.BeginTx = false) (hi : f.InsertTransactionTx = false)
    (hu : f.UpdateBalanceTx = false) (hc : f.Commit = true) :
    TransactionHandler.Handle unmarshal f msg w =
      (some (.commitTransaction .unavailable),
        { w with store :=
          { db := w.store.db, nextTx := w.store.nextTx + 1,
            calls := w.store.calls ++ [Call.BeginTx,
              Call.InsertTransactionTx w.store.nextTx tx,
              Call.UpdateBalanceTx w.store.nextTx tx.UserID (toInt tx.Amount),
              Call.Commit w.store.nextTx,
              Call.Rollback w.store.nextTx] } }) := by
  unfold isDuplicate at hnew
  simp [TransactionHandler.Handle, hdec, hval, Store.BeginTx, hb, TransactionHandler.handleTx,
    Store.InsertTransactionTx, Store.insertTransaction, hi, execInsert, hnew,
    Store.UpdateBalanceTx, Store.updateBalance, hu, PgxTx.Commit, hc, PgxTx.Rollback]

theorem Handle_commits (unmarshal : String → Except String Transaction) (f : Faults)
    (msg : ConsumerMessage) (w : World) (tx : Transaction)
    (hdec : unmarshal msg.Value = .ok tx) (hval : tx.Validate = none)
    (hnew : isDuplicate w.store.db tx = false)
    (hb : f.BeginTx = false) (hi : f.InsertTransactionTx = false)
    (hu : f.UpdateBalanceTx = false) (hc : f.Commit = false) :
    TransactionHandler.Handle unmarshal f msg w =
      (none,
        { store :=
          { db := execUpdateBalance
              { w.store.db with transactions := w.store.db.transactions ++
                [{ id := tx.ID, user_id := tx.UserID, amount := tx.Amount,
                   time := tx.CreatedAt }] }
              (toInt tx.Amount) tx.UserID,
            nextTx := w.store.nextTx + 1,
            calls := w.store.calls ++ [Call.BeginTx,
              Call.InsertTransactionTx w.store.nextTx tx,
              Call.UpdateBalanceTx w.store.nextTx tx.UserID (toInt tx.Amount),
              Call.Commit w.store.nextTx,
              Call.Rollback w.store.nextTx] },
          cache := w.cache,
          spawned := w.spawned ++ [tx.UserID] }) := by
  unfold isDuplicate at hnew
  simp [TransactionHandler.Handle, hdec, hval, Store.BeginTx, hb, TransactionHandler.handleTx,
    Store.InsertTransactionTx, Store.insertTransaction, hi, execInsert, hnew,
    Store.UpdateBalanceTx, Store.updateBalance, hu, PgxTx.Commit, hc, PgxTx.Rollback]

theorem onPostgres_insert_fails (f : Faults) :
    (onPostgres f).InsertTransactionTx = true ∧ (onPostgres f).BeginTx = f.BeginTx := by
  have hp : insertStatementParses insertTargets insertValues = false := by decide
  simp [onPostgres, hp]

theorem Handle_on_postgres_fails (unmarshal : String → Except String Transaction) (f : Faults)
    (msg : ConsumerMessage) (w : World) (tx : Transaction)
    (hdec : unmarshal msg.Value = .ok tx) (hval : tx.Validate = none)
    (hb : f.BeginTx = false) :
    TransactionHandler.Handle unmarshal (onPostgres f) msg w =
      (some (.failInsert w.store.nextTx tx),
        { w with store :=
          { db := w.store.db, nextTx := w.store.nextTx + 1,
            calls := w.store.calls ++ [Call.BeginTx,
              Call.InsertTransactionTx w.store.nextTx tx, Call.Rollback w.store.nextTx] } }) :=
  Handle_insert_fails unmarshal (onPostgres f) msg w tx hdec hval
    ((onPostgres_insert_fails f).2.trans hb) (Or.inl (onPostgres_insert_fails f).1)

/-- C4, the code at the failing input: the `INSERT` statement of the source
does not parse, its first target item holding two names, while the same list
with the comma in place does.  Against PostgreSQL the valid and new event t1
for user u1, whose balance is 40, therefore makes `Handle` return the insert
error instead of nil: the calls made are begin, insert and the deferred
rollback, no update and no commit follow, the tables are unchanged, no refresh
is started, and `GetBalance` for u1 still returns 40 and not 140. -/
theorem Handle_insert_rejected_on_postgres :
    insertStatementParses insertTargets insertValues = false ∧
      insertStatementParses [["id"], ["user_id"], ["amount"], ["time"]] insertValues = true ∧
      sampleUnmarshal msgT1.Value = .ok txT1 ∧ txT1.Validate = none ∧
      isDuplicate dbU1 txT1 = false ∧
      (TransactionHandler.Handle sampleUnmarshal (onPostgres noFaults) msgT1
        (worldOf dbU1)).1 = some (.failInsert 0 txT1) ∧
      (TransactionHandler.Handle sampleUnmarshal (onPostgres noFaults) msgT1
        (worldOf dbU1)).2.store.calls
          = [Call.BeginTx, Call.InsertTransactionTx 0 txT1, Call.Rollback 0] ∧
      (TransactionHandler.Handle sampleUnmarshal (onPostgres noFaults) msgT1
        (worldOf dbU1)).2.store.db = dbU1 ∧
      (TransactionHandler.Handle sampleUnmarshal (onPostgres noFaults) msgT1
        (worldOf dbU1)).2.spawned = [] ∧
      (Store.GetBalance noFaults
        (TransactionHandler.Handle sampleUnmarshal (onPostgres noFaults) msgT1
          (worldOf dbU1)).2.store "u1").1 = .ok 40 :=
  ⟨by decide, by decide, rfl, by decide, by decide, by decide, by decide, by decide,
   by decide, rfl⟩

/-- C5: if `UpdateBalanceTx` or `Commit` fails (the event being valid, and
`BeginTx` and the insert having succeeded), `Handle` returns a non-nil error,
the last call before it returns is `Rollback` on the handle the insert was
made on, and the store holds exactly the tables it held before `Handle` was
called: neither the row of that attempt nor a balance change is present.  No
refresh is started and the cache is untouched. -/
theorem Handle_rolls_back_on_failure (unmarshal : String → Except String Transaction)
    (f : Faults) (msg : ConsumerMessage) (w : World) (tx : Transaction)
    (hdec : unmarshal msg.Value = .ok tx) (hval : tx.Validate = none)
    (hnew : isDuplicate w.store.db tx = false)
    (hb : f.BeginTx = false) (hi : f.InsertTransactionTx = false)
    (hfail : f.UpdateBalanceTx = true ∨ f.Commit = true) :
    (TransactionHandler.Handle unmarshal f msg w).1 ≠ none ∧
      Call.InsertTransactionTx w.store.nextTx tx
        ∈ (TransactionHandler.Handle unmarshal f msg w).2.store.calls ∧
      (TransactionHandler.Handle unmarshal f msg w).2.store.calls.getLast?
        = some (Call.Rollback w.store.nextTx) ∧
      (TransactionHandler.Handle unmarshal f msg w).2.store.db = w.store.db ∧
      (TransactionHandler.Handle unmarshal f msg w).2.spawned = w.spawned ∧
      (TransactionHandler.Handle unmarshal f msg w).2.cache = w.cache := by
  cases hu : f.UpdateBalanceTx with
  | true =>
    rw [Handle_update_fails unmarshal f msg w tx hdec hval hnew hb hi hu]
    simp
  | false =>
    have hc : f.Commit = true := by
      rcases hfail with h | h
      · rw [hu] at h; cases h
      · exact h
    rw [Handle_commit_fails unmarshal f msg w tx hdec hval hnew hb hi hu hc]
    simp

/-- Witness for C5: the commit fails while t1 is handled for user u1. -/
theorem Handle_rolls_back_on_failure_witness :
    sampleUnmarshal msgT1.Value = .ok txT1 ∧ txT1.Validate = none ∧
      isDuplicate (worldOf dbU1).store.db txT1 = false ∧
      commitDown.BeginTx = false ∧ commitDown.InsertTransactionTx = false ∧
      (commitDown.UpdateBalanceTx = true ∨ commitDown.Commit = true) ∧
      ((TransactionHandler.Handle sampleUnmarshal commitDown msgT1 (worldOf dbU1)).1 ≠ none ∧
      Call.InsertTransactionTx (worldOf dbU1).store.nextTx txT1
        ∈ (TransactionHandler.Handle sampleUnmarshal commitDown msgT1
            (worldOf dbU1)).2.store.calls ∧
      (TransactionHandler.Handle sampleUnmarshal commitDown msgT1
          (worldOf dbU1)).2.store.calls.getLast?
        = some (Call.Rollback (worldOf dbU1).store.nextTx) ∧
      (TransactionHandler.Handle sampleUnmarshal commitDown msgT1 (worldOf dbU1)).2.store.db
        = (worldOf dbU1).store.db ∧
      (TransactionHandler.Handle sampleUnmarshal commitDown msgT1 (worldOf dbU1)).2.spawned
        = (worldOf dbU1).spawned ∧
      (TransactionHandler.Handle sampleUnmarshal commitDown msgT1 (worldOf dbU1)).2.cache
        = (worldOf dbU1).cache) :=
  ⟨rfl, by decide, by decide, rfl, rfl, Or.inr rfl,
   Handle_rolls_back_on_failure sampleUnmarshal commitDown msgT1 (worldOf dbU1) txT1
     rfl (by decide) (by decide) rfl rfl (Or.inr rfl)⟩

/-! ### The cache refresh -/

theorem Handle_congr_faults (unmarshal : String → Except String Transaction) (f1 f2 : Faults)
    (msg : ConsumerMessage) (w : World)
    (hb : f1.BeginTx = f2.BeginTx) (hi : f1.InsertTransactionTx = f2.InsertTransactionTx)
    (hu : f1.UpdateBalanceTx = f2.UpdateBalanceTx) (hc : f1.Commit = f2.Commit) :
    TransactionHandler.Handle unmarshal f1 msg w = TransactionHandler.Handle unmarshal f2 msg w := by
  simp only [TransactionHandler.Handle, Store.BeginTx, TransactionHandler.handleTx,
    Store.InsertTransactionTx, Store.insertTransaction, Store.UpdateBalanceTx,
    Store.updateBalance, PgxTx.Commit, hb, hi, hu, hc]

theorem Handle_nil_of_commit (unmarshal : String → Except String Transaction) (f : Faults)
    (msg : ConsumerMessage) (w : World) (h : Nat)
    (hmem : Call.Commit h ∈
      (TransactionHandler.Handle unmarshal f msg w).2.store.calls.drop w.store.calls.length)
    (hc : f.Commit = false) :
    (TransactionHandler.Handle unmarshal f msg w).1 = none := by
  cases hrej : isRejected unmarshal msg.Value with
  | true =>
    rw [(Handle_of_rejected unmarshal f msg w hrej).2] at hmem
    simp at hmem
  | false =>
    unfold isRejected at hrej
    cases hdec : unmarshal msg.Value with
    | error e => rw [hdec] at hrej; cases hrej
    | ok tx =>
      rw [hdec] at hrej
      have hval : tx.Validate = none := by
        cases hv : tx.Validate with
        | none => rfl
        | some e => simp [hv] at hrej
      cases hb : f.BeginTx with
      | true =>
        rw [Handle_begin_fails unmarshal f msg w tx hdec hval hb] at hmem
        simp at hmem
      | false =>
        by_cases hins : f.InsertTransactionTx = true ∨ isDuplicate w.store.db tx = true
        · rw [Handle_insert_fails unmarshal f msg w tx hdec hval hb hins] at hmem
          simp at hmem
        · have hi : f.InsertTransactionTx = false := by
            cases hx : f.InsertTransactionTx with
            | false => rfl
            | true => exact absurd (Or.inl hx) hins
          have hnew : isDuplicate w.store.db tx = false := by
            cases hx : isDuplicate w.store.db tx with
            | false => rfl
            | true => exact absurd (Or.inr hx) hins
          cases hu : f.UpdateBalanceTx with
          | true =>
            rw [Handle_update_fails unmarshal f msg w tx hdec hval hnew hb hi hu] at hmem
            simp at hmem
          | false =>
            rw [Handle_commits unmarshal f msg w tx hdec hval hnew hb hi hu hc]

/-- C8: the value `Handle` returns does not depend on the cache refresh.  Two
runs on the same message and world in which `BeginTx`, `InsertTransactionTx`,
`UpdateBalanceTx` and `Commit` have the same outcomes return the same value,
whether `GetBalance` and `SetBalance` of the refresh succeed or fail; and when
`Commit` was called in the run and did not fail, the value is nil. -/
theorem Handle_result_independent_of_refresh
    (unmarshal : String → Except String Transaction) (f1 f2 : Faults)
    (msg : ConsumerMessage) (w : World)
    (hb : f1.BeginTx = f2.BeginTx) (hi : f1.InsertTransactionTx = f2.InsertTransactionTx)
    (hu : f1.UpdateBalanceTx = f2.UpdateBalanceTx) (hc : f1.Commit = f2.Commit) :
    (TransactionHandler.HandleAndRefresh unmarshal f1 msg w).1
        = (TransactionHandler.HandleAndRefresh unmarshal f2 msg w).1 ∧
      (∀ h, Call.Commit h ∈
          (TransactionHandler.Handle unmarshal f1 msg w).2.store.calls.drop w.store.calls.length →
        f1.Commit = false →
        (TransactionHandler.HandleAndRefresh unmarshal f1 msg w).1 = none) := by
  refine ⟨?_, ?_⟩
  · simp only [TransactionHandler.HandleAndRefresh]
    rw [Handle_congr_faults unmarshal f1 f2 msg w hb hi hu hc]
  · intro h hmem hcf
    simp only [TransactionHandler.HandleAndRefresh]
    exact Handle_nil_of_commit unmarshal f1 msg w h hmem hcf

/-- Witness for C8: the same message handled once with a working refresh and
once with a refresh whose two calls fail; the cache differs, the returned
value does not. -/
theorem Handle_result_independent_of_refresh_witness :
    (TransactionHandler.HandleAndRefresh sampleUnmarshal noFaults msgT1 (worldOf dbU1)).2.cache
        = { entries := [("balance:u1", 140)] } ∧
      (TransactionHandler.HandleAndRefresh sampleUnmarshal refreshDown msgT1
        (worldOf dbU1)).2.cache = { entries := [] } ∧
      ((TransactionHandler.HandleAndRefresh sampleUnmarshal noFaults msgT1 (worldOf dbU1)).1
        = (TransactionHandler.HandleAndRefresh sampleUnmarshal refreshDown msgT1
            (worldOf dbU1)).1 ∧
      (∀ h, Call.Commit h ∈
          (TransactionHandler.Handle sampleUnmarshal noFaults msgT1
            (worldOf dbU1)).2.store.calls.drop (worldOf dbU1).store.calls.length →
        noFaults.Commit = false →
        (TransactionHandler.HandleAndRefresh sampleUnmarshal noFaults msgT1
          (worldOf dbU1)).1 = none)) :=
  ⟨by decide, by decide,
   Handle_result_independent_of_refresh sampleUnmarshal noFaults refreshDown msgT1
     (worldOf dbU1) rfl rfl rfl rfl⟩

/-! ### Group sessions -/

theorem consumeLoop_joinFailed (err : String) (rest : List ConsumeResult) (c : Consumer) :
    Consumer.consumeLoop (.joinFailed err :: rest) c = (c, none) := by
  simp [Consumer.consumeLoop]

/-- C9, the code at the failing input: when the first `Consume` fails before a
session is set up, `Start` on a new consumer does not return, it waits on
`ready` for ever; and whatever `Consume` does, `Start` never returns a non-nil
error. -/
theorem Start_blocks_when_join_fails (err : String) (rest : List ConsumeResult) :
    Consumer.Start (.joinFailed err :: rest) NewConsumer = .blocked ∧
      ∀ (consumes : List ConsumeResult) (c : Consumer) (e : String),
        Consumer.Start consumes c ≠ .returned (some e) := by
  refine ⟨?_, ?_⟩
  · simp [Consumer.Start, consumeLoop_joinFailed, NewConsumer]
  · intro consumes c e
    unfold Consumer.Start
    split <;> simp

/-- C10, the code at the failing input: the first session on a new consumer
runs `Setup` without a panic and gets nil, and with two or more sessions the
second `Setup` panics on closing the closed `ready` channel. -/
theorem Setup_panics_in_second_session (n : Nat) :
    Consumer.sessions 1 NewConsumer = .ok ([none], { ready := .closed }) ∧
      Consumer.sessions (n + 2) NewConsumer = .error "close of closed channel" := by
  refine ⟨?_, ?_⟩
  · simp [Consumer.sessions, Consumer.Setup, closeChan, NewConsumer, Consumer.Cleanup]
  · simp [Consumer.sessions, Consumer.Setup, closeChan, NewConsumer, Consumer.Cleanup]

end LoyaltyConsumer
